import Mathlib

/-!
Shallow embedding of `fardream/confirm-solana-transaction` (src/src/index.ts).

The poll loop of `confirmTransaction` is modelled as a step function over an
explicit per-iteration environment: the result of the `getSignatureStatus`
call, the result of the `getBlockHeight` call (consulted only on the paths
that query it), and the wall-clock timestamp returned by `getTimestamp()` at
the deadline check.  Each RPC call may either return a value or throw
(a transient failure), mirroring the `try`/`catch` in the source.  The
infinite `for (;;)` loop is run against a finite list of iteration
environments; exhausting the list without a terminal outcome models a loop
that is still running (`none`).
-/

namespace ConfirmSolana

/-- Result of a single RPC call: a value, or a thrown transient failure. -/
inductive RpcResult (α : Type) where
  | ok (val : α)
  | fail
deriving DecidableEq, Repr

/-- The fields of web3.js `SignatureStatus` that `confirmTransaction` reads:
`err` (a nullable on-chain error cause, modelled as an opaque string),
`confirmations` (a nullable count; JS truthiness means `some n` with `n ≠ 0`),
and `confirmationStatus` (a possibly-absent commitment-level string). -/
structure SignatureStatus where
  err : Option String
  confirmations : Option Nat
  confirmationStatus : Option String
deriving DecidableEq, Repr

/-- External observations consumed by one iteration of the poll loop. -/
structure IterEnv where
  status : RpcResult (Option SignatureStatus)
  height : RpcResult Nat
  now : Int
deriving DecidableEq, Repr

/-- Terminal outcome of one call to `confirmTransaction`:
`resolve(result)`, `reject(TransactionDroppedError)`, `reject(result.err)`,
`reject(TimeoutError)` in the source. -/
inductive Outcome where
  | confirmed (s : SignatureStatus)
  | dropped
  | onChainError (e : String)
  | timeout
deriving DecidableEq, Repr

/-- How one loop iteration ends: a terminal outcome, or another iteration.
`next rs slept`: `rs` is the `retry_sleep` value the next iteration starts
with; `slept = some d` means this iteration passed the deadline check and
then slept `d` ms (the `await sleep(retry_sleep); retry_sleep *= 2` path),
while `slept = none` means the iteration ended with a bare `continue`,
reaching neither the deadline check nor the sleep. -/
inductive StepOut where
  | done (o : Outcome)
  | next (retry_sleep : Nat) (slept : Option Nat)
deriving DecidableEq, Repr

/-- `const max_time = 8640000000000000` — the sentinel deadline used when no
timeout is supplied. -/
def max_time : Int := 8640000000000000

/-- The `confirmationStatusList` map of index.ts lines 58-62. -/
def confirmationStatusList (c : String) : Option (List String) :=
  if c = "finalized" then some ["finalized"]
  else if c = "confirmed" then some ["finalized", "confirmed"]
  else if c = "processed" then some ["confirmed", "finalized", "processed"]
  else none

/-- `const stop_time = timeout_in_ms ? getTimestamp() + timeout_in_ms : max_time`
(line 83).  `timeout_in_ms` is optional and `0` is falsy in JS, so both an
absent timeout and a zero timeout yield the `max_time` sentinel. -/
def stop_time (now0 : Int) (timeout_in_ms : Option Int) : Int :=
  match timeout_in_ms with
  | some t => if t = 0 then max_time else now0 + t
  | none => max_time

/-- JS truthiness of `result.confirmations` (`number | null`): truthy exactly
when non-null and nonzero. -/
def confirmTruthy : Option Nat → Bool
  | none => false
  | some n => decide (n ≠ 0)

/-- `desired_confirms.includes(result.confirmationStatus as Commitment)`:
an absent `confirmationStatus` is never an element of the list. -/
def statusSatisfies (cs : Option String) (desired : List String) : Bool :=
  match cs with
  | some c => desired.contains c
  | none => false

/-- The tail of an iteration that threw (lines 152-158): check the deadline,
rejecting with `TimeoutError` when the current time exceeds `stop_time`;
otherwise sleep `retry_sleep` ms and double it. -/
def afterCatch (stop : Int) (rs : Nat) (now : Int) : StepOut :=
  if now > stop then .done .timeout else .next (rs * 2) (some rs)

/-- The drop check run when status is absent or insufficient (lines 100-115
and 130-143): query the block height (which may itself throw, landing in the
catch path), reject with `TransactionDroppedError` when it strictly exceeds
`lastValidBlockHeight`, and otherwise `continue` — which in the source jumps
straight to the next iteration, skipping the deadline check and the sleep. -/
def heightCheck (lastValid : Nat) (stop : Int) (rs : Nat) (e : IterEnv) : StepOut :=
  match e.height with
  | .fail => afterCatch stop rs e.now
  | .ok h => if h > lastValid then .done .dropped else .next rs none

/-- One iteration of the `for (;;)` loop of `confirmTransaction`
(lines 93-159), with `desired` the commitment's satisfied set, `lastValid`
the expiry height, `stop` the precomputed `stop_time` and `rs` the current
`retry_sleep`. -/
def step (desired : List String) (lastValid : Nat) (stop : Int) (rs : Nat)
    (e : IterEnv) : StepOut :=
  match e.status with
  | .fail => afterCatch stop rs e.now
  | .ok none => heightCheck lastValid stop rs e
  | .ok (some s) =>
    match s.err with
    | some er => .done (.onChainError er)
    | none =>
      if confirmTruthy s.confirmations || statusSatisfies s.confirmationStatus desired then
        .done (.confirmed s)
      else heightCheck lastValid stop rs e

/-- An iteration that lands in the `catch` block (lines 148-150) through a
transient RPC failure: the status query throws, or the height query throws
on a path that performs one — the status-absent path (lines 102-104) or the
insufficient-status path (lines 130-132).  A present status whose `err` is
set, or one that satisfies the commitment, never queries the height, and a
successful height query is not a transient failure. -/
def isTransientFail (desired : List String) (e : IterEnv) : Bool :=
  match e.status with
  | .fail => true
  | .ok none => decide (e.height = .fail)
  | .ok (some s) =>
    match s.err with
    | some _ => false
    | none =>
      !(confirmTruthy s.confirmations ||
          statusSatisfies s.confirmationStatus desired) &&
        decide (e.height = .fail)

/-- Run the poll loop against a finite list of iteration environments.
`none` means the loop consumed every environment without reaching a terminal
outcome, i.e. it is still polling. -/
def loopRun (desired : List String) (lastValid : Nat) (stop : Int) :
    Nat → List IterEnv → Option Outcome
  | _, [] => none
  | rs, e :: rest =>
    match step desired lastValid stop rs e with
    | .done o => some o
    | .next rs' _ => loopRun desired lastValid stop rs' rest

/-- `confirmTransaction` (lines 73-162): validate the commitment against
`confirmationStatusList` before the loop starts — throwing
`unsupported commitment` without consuming any iteration environment (no
network call) — then run the loop with `retry_sleep = 400` and the
precomputed `stop_time`. -/
def confirmTransaction (lastValid : Nat) (commitment : String)
    (timeout_in_ms : Option Int) (now0 : Int) (envs : List IterEnv) :
    Except String (Option Outcome) :=
  match confirmationStatusList commitment with
  | none => .error ("unsupported commitment: " ++ commitment)
  | some desired =>
    .ok (loopRun desired lastValid (stop_time now0 timeout_in_ms) 400 envs)

/-- The fields of web3.js `ConfirmOptions` that `sendAndConfirmTransaction`
reads. -/
structure ConfirmOptions where
  skipPreflight : Option Bool
  preflightCommitment : Option String
  commitment : Option String
  maxRetries : Option Nat
deriving DecidableEq, Repr

/-- The object literal built at lines 188-192:
`options && { skipPreflight, preflightCommitment: options.preflightCommitment || options.commitment, maxRetries }`. -/
structure SendOptions where
  skipPreflight : Option Bool
  preflightCommitment : Option String
  maxRetries : Option Nat
deriving DecidableEq, Repr

/-- `const sendOptions = options && { ... }` (lines 188-192): `undefined`
options stay `undefined`; otherwise `preflightCommitment` defaults to
`options.commitment` when the caller left it unset.  This local is computed
by the source but never read afterwards. -/
def deriveSendOptions : Option ConfirmOptions → Option SendOptions
  | none => none
  | some o =>
    some { skipPreflight := o.skipPreflight
           preflightCommitment :=
             match o.preflightCommitment with
             | some c => some c
             | none => o.commitment
           maxRetries := o.maxRetries }

/-- `const commitment = options?.commitment ?? "finalized"` (line 193). -/
def commitmentOf (options : Option ConfirmOptions) : String :=
  (options.bind (fun o => o.commitment)).getD "finalized"

/-- The fields of a web3.js `Transaction` that `sendAndConfirmTransaction`
touches: `nonceInfo` (truthy or not) and `recentBlockhash`. -/
structure Transaction where
  nonceInfo : Bool
  recentBlockhash : Option String
deriving DecidableEq, Repr

/-- Externally visible calls made by `sendAndConfirmTransaction`, in order. -/
inductive Effect where
  | getLatestBlockhash (commitment : String)
  | signAndSerialize (boundBlockhash : String)
  | sendRawTransaction (options : Option ConfirmOptions)
  | confirm (lastValid : Nat) (signature : String) (commitment : String)
      (timeout_in_ms : Option Int)
deriving DecidableEq, Repr

/-- Terminal behaviour of one call to `sendAndConfirmTransaction`. -/
inductive SendResult where
  | nonceUnsupported
  | unsupportedCommitment (c : String)
  | confirmPending
  | confirmFailed (o : Outcome)
  | ok (signature : String)
deriving DecidableEq, Repr

/-- Responses of the external collaborators consumed by one call to
`sendAndConfirmTransaction`: the `getLatestBlockhash` pair, the signature
returned by `sendRawTransaction`, and the clock/iteration environments fed
to the nested `confirmTransaction` call. -/
structure SendEnv where
  blockhash : String
  lastValidBlockHeight : Nat
  sendSignature : String
  now0 : Int
  envs : List IterEnv
deriving Repr

/-- The ordered log of external calls made on the non-nonce path of
`sendAndConfirmTransaction` (lines 195-210): fetch the blockhash/expiry pair
at the chosen commitment, bind the blockhash and sign/serialize, submit the
wire data — with the caller's `options` object (line 202), not the derived
`sendOptions` — then delegate to `confirmTransaction` with the recorded
expiry height. -/
def sendEffects (options : Option ConfirmOptions) (timeout_in_ms : Int)
    (env : SendEnv) : List Effect :=
  [.getLatestBlockhash (commitmentOf options),
   .signAndSerialize env.blockhash,
   .sendRawTransaction options,
   .confirm env.lastValidBlockHeight env.sendSignature (commitmentOf options)
     (some timeout_in_ms)]

/-- How `sendAndConfirmTransaction` maps the awaited `confirmTransaction`
result to its own behaviour: an unsupported commitment or any non-Confirmed
terminal outcome propagates as a failure; only a resolved (Confirmed) status
lets the signature be returned (lines 204-212). -/
def sendResultOf (commitment : String) (sig : String) :
    Except String (Option Outcome) → SendResult
  | .error _ => .unsupportedCommitment commitment
  | .ok none => .confirmPending
  | .ok (some (.confirmed _)) => .ok sig
  | .ok (some o) => .confirmFailed o

/-- `sendAndConfirmTransaction` (lines 175-213): fail fast when
`transaction.nonceInfo` is truthy, making no external call; otherwise run
the submit/confirm pipeline, returning the result paired with the ordered
log of external calls. -/
def sendAndConfirmTransaction (transaction : Transaction)
    (options : Option ConfirmOptions) (timeout_in_ms : Int) (env : SendEnv) :
    SendResult × List Effect :=
  if transaction.nonceInfo then (.nonceUnsupported, [])
  else
    (sendResultOf (commitmentOf options) env.sendSignature
      (confirmTransaction env.lastValidBlockHeight (commitmentOf options)
        (some timeout_in_ms) env.now0 env.envs),
     sendEffects options timeout_in_ms env)

/-- The `options` argument handed to the `sendRawTransaction` call in an
effect log, when one occurs. -/
def sentRawOptions : List Effect → Option (Option ConfirmOptions)
  | [] => none
  | .sendRawTransaction o :: _ => some o
  | _ :: rest => sentRawOptions rest

/-! ### Helper lemmas (shared) -/

/-- `afterCatch` produces only a timeout or a backoff continuation. -/
theorem afterCatch_cases (stop : Int) (rs : Nat) (now : Int) :
    afterCatch stop rs now = .done .timeout ∨
      afterCatch stop rs now = .next (rs * 2) (some rs) := by
  unfold afterCatch
  by_cases hlt : now > stop
  · exact Or.inl (if_pos hlt)
  · exact Or.inr (if_neg hlt)

/-- `afterCatch` yields a timeout exactly when the clock has passed the
deadline. -/
theorem afterCatch_timeout_iff (stop : Int) (rs : Nat) (now : Int) :
    afterCatch stop rs now = .done .timeout ↔ stop < now := by
  unfold afterCatch
  by_cases hlt : now > stop
  · rw [if_pos hlt]
    exact iff_of_true rfl hlt
  · rw [if_neg hlt]
    exact iff_of_false (fun hc => StepOut.noConfusion hc) hlt

/-- A step can only report a timeout when the iteration's clock reading
exceeds the deadline. -/
theorem step_timeout_le (desired : List String) (lastValid : Nat) (stop : Int)
    (rs : Nat) (e : IterEnv)
    (h : step desired lastValid stop rs e = .done .timeout) : stop < e.now := by
  obtain ⟨st, hei, now⟩ := e
  rcases st with v | _
  · rcases v with _ | s
    · rcases hei with hv | _
      · simp only [step, heightCheck] at h
        split at h <;> simp_all
      · simp only [step, heightCheck] at h
        exact (afterCatch_timeout_iff stop rs now).mp h
    · obtain ⟨serr, sconf, scs⟩ := s
      rcases serr with _ | er
      · simp only [step] at h
        split at h
        · simp at h
        · rcases hei with hv | _
          · simp only [heightCheck] at h
            split at h <;> simp_all
          · simp only [heightCheck] at h
            exact (afterCatch_timeout_iff stop rs now).mp h
      · simp only [step] at h
        simp at h
  · simp only [step] at h
    exact (afterCatch_timeout_iff stop rs now).mp h

/-- The height-check path never resolves with a confirmed status. -/
theorem heightCheck_not_confirmed (lastValid : Nat) (stop : Int) (rs : Nat)
    (e : IterEnv) (s : SignatureStatus) :
    heightCheck lastValid stop rs e ≠ .done (.confirmed s) := by
  obtain ⟨st, hei, now⟩ := e
  rcases hei with hv | _
  · simp only [heightCheck]
    split <;> simp
  · simp only [heightCheck]
    rcases afterCatch_cases stop rs now with hc | hc <;> rw [hc] <;> simp

/-- An iteration marked as a transient failure runs the tail of the `catch`
block: its step is exactly `afterCatch` on its clock reading, whichever of
the three failure shapes occurred. -/
theorem transient_step_afterCatch (desired : List String) (lastValid : Nat)
    (stop : Int) (rs : Nat) (e : IterEnv)
    (h : isTransientFail desired e = true) :
    step desired lastValid stop rs e = afterCatch stop rs e.now := by
  obtain ⟨st, hei, now⟩ := e
  rcases st with v | _
  · rcases v with _ | s
    · simp only [isTransientFail, decide_eq_true_eq] at h
      subst h
      simp only [step, heightCheck]
    · obtain ⟨serr, sconf, scs⟩ := s
      rcases serr with _ | er
      · simp only [isTransientFail, Bool.and_eq_true, Bool.not_eq_eq_eq_not,
          Bool.not_true, decide_eq_true_eq] at h
        obtain ⟨hcond, hfail⟩ := h
        subst hfail
        simp only [step, heightCheck, hcond, Bool.false_eq_true, if_false]
      · simp only [isTransientFail] at h
        simp at h
  · simp only [step]

/-- Any finite prefix of transient failures whose deadline checks all pass,
followed by an iteration whose status is present, unerrored and sufficient,
makes the loop resolve with that status (the backoff doubles across the
failures but the outcome is unaffected). -/
theorem loopRun_fails_then_confirmed (desired : List String) (lastValid : Nat)
    (stop : Int) (s : SignatureStatus) (good : IterEnv)
    (hgood : good.status = .ok (some s)) (hserr : s.err = none)
    (hsuff : (confirmTruthy s.confirmations ||
      statusSatisfies s.confirmationStatus desired) = true) :
    ∀ fails : List IterEnv,
      (∀ e ∈ fails, isTransientFail desired e = true ∧ e.now ≤ stop) →
      ∀ rs : Nat,
        loopRun desired lastValid stop rs (fails ++ [good]) =
          some (.confirmed s) := by
  intro fails
  induction fails with
  | nil =>
    intro _ rs
    have hstep : step desired lastValid stop rs good = .done (.confirmed s) := by
      simp only [step, hgood, hserr, if_pos hsuff]
    simp only [List.nil_append, loopRun, hstep]
  | cons e rest ih =>
    intro hfails rs
    have he := hfails e (List.mem_cons_self e rest)
    have hstep : step desired lastValid stop rs e = .next (rs * 2) (some rs) := by
      rw [transient_step_afterCatch desired lastValid stop rs e he.1]
      unfold afterCatch
      rw [if_neg (not_lt.mpr he.2)]
    simp only [List.cons_append, loopRun, hstep]
    exact ih (fun e' he' => hfails e' (List.mem_cons_of_mem e he')) (rs * 2)

/-- If every iteration's clock reading stays at or below the deadline, the
loop never reports a timeout. -/
theorem loopRun_no_timeout (desired : List String) (lastValid : Nat)
    (stop : Int) :
    ∀ envs : List IterEnv, (∀ e ∈ envs, e.now ≤ stop) →
      ∀ rs : Nat, loopRun desired lastValid stop rs envs ≠ some .timeout := by
  intro envs
  induction envs with
  | nil =>
    intro _ rs hc
    exact Option.noConfusion hc
  | cons e rest ih =>
    intro hall rs hc
    rcases hstep : step desired lastValid stop rs e with o | ⟨rs', slept⟩
    · simp only [loopRun, hstep] at hc
      have ho : o = .timeout := by simpa using hc
      subst ho
      have h1 := step_timeout_le desired lastValid stop rs e hstep
      have h2 := hall e (List.mem_cons_self e rest)
      omega
    · simp only [loopRun, hstep] at hc
      exact ih (fun e' he' => hall e' (List.mem_cons_of_mem e he')) rs' hc

/-- `sendResultOf` returns the signature exactly when the confirmation
resolved with some confirmed status. -/
theorem sendResultOf_ok_iff (commitment sig : String)
    (r : Except String (Option Outcome)) :
    sendResultOf commitment sig r = .ok sig ↔
      ∃ s, r = .ok (some (.confirmed s)) := by
  rcases r with msg | v
  · simp [sendResultOf]
  · rcases v with _ | o
    · simp [sendResultOf]
    · rcases o with s | _ | er | _ <;> simp [sendResultOf]

/-! ### Claim theorems -/

/-- C3: in any iteration where the signature status is reported absent, the
step rejects with `TransactionDroppedError` exactly when the freshly queried
chain height strictly exceeds the recorded expiry height — for every clock
reading, deadline and backoff state, so drop detection is exactly the
comparison `currentHeight > expiryHeight` and independent of elapsed time. -/
theorem absent_dropped_iff_height_exceeds (desired : List String)
    (lastValid : Nat) (stop : Int) (rs : Nat) (h : Nat) (now : Int) :
    step desired lastValid stop rs ⟨.ok none, .ok h, now⟩ = .done .dropped ↔
      lastValid < h := by
  simp only [step, heightCheck]
  by_cases hlt : h > lastValid
  · rw [if_pos hlt]
    exact iff_of_true rfl hlt
  · rw [if_neg hlt]
    exact iff_of_false (fun hc => StepOut.noConfusion hc) hlt

/-- C4: in an iteration whose status query succeeds with a present,
non-errored status, the step resolves with `Confirmed(status)` exactly when
the status carries a truthy (nonzero) confirmation count or its
`confirmationStatus` lies in the requested commitment's satisfied set — for
every clock reading and deadline (the success check precedes the deadline
check, which a resolving iteration never reaches) and every height-query
response (a sufficient status resolves without consulting the height, and an
insufficient one never resolves). -/
theorem present_confirmed_iff (desired : List String) (lastValid : Nat)
    (stop : Int) (rs : Nat) (hr : RpcResult Nat) (now : Int)
    (s : SignatureStatus) (he : s.err = none) :
    step desired lastValid stop rs ⟨.ok (some s), hr, now⟩ =
        .done (.confirmed s) ↔
      (confirmTruthy s.confirmations = true ∨
        statusSatisfies s.confirmationStatus desired = true) := by
  simp only [step, he]
  by_cases hc : (confirmTruthy s.confirmations ||
      statusSatisfies s.confirmationStatus desired) = true
  · rw [if_pos hc]
    refine iff_of_true rfl ?_
    simpa using hc
  · rw [if_neg hc]
    refine iff_of_false (heightCheck_not_confirmed lastValid stop rs _ s) ?_
    intro hd
    rcases hd with h1 | h2
    · exact hc (by simp [h1])
    · exact hc (by simp [h2])

/-- Witness for C4 at a concrete input: a status with one confirmation
resolves even though the clock (2000) is already past the deadline (1000). -/
theorem present_confirmed_iff_witness :
    step ["finalized"] 100 1000 400
        ⟨.ok (some ⟨none, some 1, none⟩), .ok 50, 2000⟩ =
      .done (.confirmed ⟨none, some 1, none⟩) :=
  (present_confirmed_iff ["finalized"] 100 1000 400 (.ok 50) 2000
      ⟨none, some 1, none⟩ rfl).mpr (Or.inl (by decide))

/-- C5: a successfully queried status carrying an on-chain error cause makes
the step reject with that cause in the same iteration, for every
height-query response (none is needed), expiry height, deadline and clock
reading. -/
theorem onchain_error_rejects_immediately (desired : List String)
    (lastValid : Nat) (stop : Int) (rs : Nat) (hr : RpcResult Nat) (now : Int)
    (s : SignatureStatus) (er : String) (he : s.err = some er) :
    step desired lastValid stop rs ⟨.ok (some s), hr, now⟩ =
      .done (.onChainError er) := by
  simp only [step, he]

/-- Witness for C5 at a concrete input: the height oracle is even set to
fail, showing no height query is consulted. -/
theorem onchain_error_rejects_immediately_witness :
    step ["finalized"] 100 1000 400
        ⟨.ok (some ⟨some "InstructionError", none, none⟩), .fail, 2000⟩ =
      .done (.onChainError "InstructionError") :=
  onchain_error_rejects_immediately ["finalized"] 100 1000 400 .fail 2000
    ⟨some "InstructionError", none, none⟩ "InstructionError" rfl

/-- C1 fails on the code: with the deadline already passed (clock 2000,
deadline 1000), expiry height 100, current height 90 and backoff 400 ms,
both the status-absent path and the insufficiently-confirmed path end the
iteration with `continue` — no `TimeoutError`, no sleep, backoff
unchanged — while the transient-failure path, reaching the same state, does
produce the timeout.  Only the transient-failure path passes through the
deadline check and backoff. -/
theorem retry_paths_skip_deadline_and_backoff :
    step ["finalized"] 100 1000 400 ⟨.ok none, .ok 90, 2000⟩ =
        .next 400 none ∧
    step ["finalized"] 100 1000 400
        ⟨.ok (some ⟨none, none, some "processed"⟩), .ok 90, 2000⟩ =
      .next 400 none ∧
    step ["finalized"] 100 1000 400 ⟨.fail, .ok 90, 2000⟩ = .done .timeout :=
  ⟨rfl, rfl, rfl⟩

/-- C6: the commitment-satisfaction mapping is exactly finalized → {finalized},
confirmed → {finalized, confirmed}, processed → {confirmed, finalized,
processed}; and for any requested commitment outside these three,
`confirmTransaction` fails with the unsupported-commitment error for every
list of iteration environments — the validation happens once, before the
poll loop runs and before any network response is consumed. -/
theorem commitment_policy_exact :
    confirmationStatusList "finalized" = some ["finalized"] ∧
    confirmationStatusList "confirmed" = some ["finalized", "confirmed"] ∧
    confirmationStatusList "processed" =
      some ["confirmed", "finalized", "processed"] ∧
    ∀ c : String, c ≠ "finalized" → c ≠ "confirmed" → c ≠ "processed" →
      ∀ (lastValid : Nat) (t : Option Int) (now0 : Int) (envs : List IterEnv),
        confirmTransaction lastValid c t now0 envs =
          .error ("unsupported commitment: " ++ c) := by
  refine ⟨rfl, rfl, rfl, ?_⟩
  intro c h1 h2 h3 lastValid t now0 envs
  unfold confirmTransaction confirmationStatusList
  rw [if_neg h1, if_neg h2, if_neg h3]

/-- Witness for C6 at a concrete input: the legacy commitment `recent` is
rejected even when no iteration environment is supplied. -/
theorem commitment_policy_exact_witness :
    confirmTransaction 100 "recent" (some 1000) 0 [] =
      .error ("unsupported commitment: " ++ "recent") :=
  commitment_policy_exact.2.2.2 "recent" (by decide) (by decide) (by decide)
    100 (some 1000) 0 []

/-- C7: an iteration that fails transiently — whether the status query
throws, or the height query throws on the status-absent path or on the
insufficient-status path — only ever ends in the deadline-gated backoff
continuation or a timeout, never in Dropped, an on-chain error or a
resolution, so the failure itself is never surfaced; and a run of finitely
many such transient failures (each within the deadline, the spec's "bounded
only by the overall deadline") followed by a sufficient status resolves
Confirmed.  The embedding returns at most one outcome per run by
construction. -/
theorem transient_failures_swallowed (desired : List String) (lastValid : Nat)
    (stop : Int) (s : SignatureStatus) (good : IterEnv)
    (fails : List IterEnv)
    (hfails : ∀ e ∈ fails, isTransientFail desired e = true ∧ e.now ≤ stop)
    (hgood : good.status = .ok (some s)) (hserr : s.err = none)
    (hsuff : (confirmTruthy s.confirmations ||
      statusSatisfies s.confirmationStatus desired) = true) :
    (∀ e : IterEnv, isTransientFail desired e = true → ∀ rs : Nat,
        step desired lastValid stop rs e = .done .timeout ∨
          step desired lastValid stop rs e = .next (rs * 2) (some rs)) ∧
    ∀ rs : Nat,
      loopRun desired lastValid stop rs (fails ++ [good]) =
        some (.confirmed s) := by
  refine ⟨?_, loopRun_fails_then_confirmed desired lastValid stop s good
    hgood hserr hsuff fails hfails⟩
  intro e he rs
  rw [transient_step_afterCatch desired lastValid stop rs e he]
  exact afterCatch_cases stop rs e.now

/-- Witness for C7 at a concrete input exercising all three transient-failure
shapes before the deadline (1000): the status query throws at clock 500; the
status is absent and the height query throws at clock 550; the status is
present but below the requested level and the height query throws at clock
560; then a status at the satisfied level resolves. -/
theorem transient_failures_swallowed_witness :
    loopRun ["finalized"] 100 1000 400
        [⟨.fail, .fail, 500⟩,
         ⟨.ok none, .fail, 550⟩,
         ⟨.ok (some ⟨none, none, some "processed"⟩), .fail, 560⟩,
         ⟨.ok (some ⟨none, none, some "finalized"⟩), .ok 90, 600⟩] =
      some (.confirmed ⟨none, none, some "finalized"⟩) :=
  (transient_failures_swallowed ["finalized"] 100 1000
      ⟨none, none, some "finalized"⟩
      ⟨.ok (some ⟨none, none, some "finalized"⟩), .ok 90, 600⟩
      [⟨.fail, .fail, 500⟩,
       ⟨.ok none, .fail, 550⟩,
       ⟨.ok (some ⟨none, none, some "processed"⟩), .fail, 560⟩]
      (by decide) rfl rfl (by decide)).2 400

/-- C8: `sendAndConfirmTransaction` fails fast with the nonce-unsupported
error and makes no external call when the transaction carries durable-nonce
information; otherwise its external calls are exactly: fetch the
blockhash/expiry pair at the chosen commitment, bind the blockhash and
sign/serialize, submit the raw transaction obtaining a signature, and
delegate to `confirmTransaction` with the recorded expiry height — and it
returns the submission's signature exactly when that confirmation resolves
with some confirmed status; every other terminal behaviour propagates as a
failure. -/
theorem sendAndConfirm_flow (transaction : Transaction)
    (options : Option ConfirmOptions) (t : Int) (env : SendEnv) :
    (transaction.nonceInfo = true →
      sendAndConfirmTransaction transaction options t env =
        (.nonceUnsupported, [])) ∧
    (transaction.nonceInfo = false →
      (sendAndConfirmTransaction transaction options t env).2 =
        [.getLatestBlockhash (commitmentOf options),
         .signAndSerialize env.blockhash,
         .sendRawTransaction options,
         .confirm env.lastValidBlockHeight env.sendSignature
           (commitmentOf options) (some t)] ∧
      ((sendAndConfirmTransaction transaction options t env).1 =
          .ok env.sendSignature ↔
        ∃ s, confirmTransaction env.lastValidBlockHeight
            (commitmentOf options) (some t) env.now0 env.envs =
          .ok (some (.confirmed s)))) := by
  constructor
  · intro hn
    unfold sendAndConfirmTransaction
    rw [hn]
    rfl
  · intro hn
    unfold sendAndConfirmTransaction
    rw [hn]
    refine ⟨rfl, ?_⟩
    exact sendResultOf_ok_iff (commitmentOf options) env.sendSignature _

/-- Witness for C8 at a concrete input: a non-nonce transaction whose single
poll iteration sees one confirmation, so the submission's signature is
returned. -/
theorem sendAndConfirm_flow_witness :
    (sendAndConfirmTransaction ⟨false, none⟩ none 60000
        ⟨"hash", 100, "sig", 0,
         [⟨.ok (some ⟨none, some 1, none⟩), .ok 90, 500⟩]⟩).1 =
      .ok "sig" :=
  ((sendAndConfirm_flow ⟨false, none⟩ none 60000
      ⟨"hash", 100, "sig", 0,
       [⟨.ok (some ⟨none, some 1, none⟩), .ok 90, 500⟩]⟩).2 rfl).2.mpr
    ⟨⟨none, some 1, none⟩, rfl⟩

/-- C9: a zero timeout is falsy in the deadline computation, so the deadline
is the same `max_time` sentinel used when the timeout is omitted, and as
long as every observed clock reading stays at or below the sentinel (true of
any epoch-millisecond clock until the year 275760) no run of the loop under
that deadline can produce a timeout. -/
theorem zero_timeout_never_times_out (now0 : Int) (desired : List String)
    (lastValid : Nat) :
    stop_time now0 (some 0) = stop_time now0 none ∧
    stop_time now0 (some 0) = max_time ∧
    ∀ envs : List IterEnv, (∀ e ∈ envs, e.now ≤ max_time) →
      ∀ rs : Nat,
        loopRun desired lastValid (stop_time now0 (some 0)) rs envs ≠
          some .timeout := by
  refine ⟨rfl, rfl, ?_⟩
  intro envs hall rs
  exact loopRun_no_timeout desired lastValid max_time envs hall rs

/-- Witness for C9 at a concrete input: with timeout 0 even a transient
failure observed at a huge clock reading does not time out. -/
theorem zero_timeout_never_times_out_witness :
    loopRun ["finalized"] 100 (stop_time 500 (some 0)) 400
        [⟨.fail, .fail, 99999999⟩] ≠ some .timeout :=
  (zero_timeout_never_times_out 500 ["finalized"] 100).2.2
    [⟨.fail, .fail, 99999999⟩] (by decide) 400

/-- C10: on the non-nonce path the options handed to `sendRawTransaction`
are exactly the caller's original `options` value (possibly `none`, possibly
with `preflightCommitment` unset), while the locally derived `sendOptions`
— which would default `preflightCommitment` to the chosen commitment when
the caller omits it — is never the value submitted. -/
theorem raw_send_uses_caller_options (transaction : Transaction)
    (options : Option ConfirmOptions) (t : Int) (env : SendEnv)
    (hn : transaction.nonceInfo = false) :
    sentRawOptions (sendAndConfirmTransaction transaction options t env).2 =
        some options ∧
    ∀ o : ConfirmOptions, o.preflightCommitment = none →
      deriveSendOptions (some o) =
        some ⟨o.skipPreflight, o.commitment, o.maxRetries⟩ := by
  constructor
  · unfold sendAndConfirmTransaction
    rw [hn]
    rfl
  · intro o ho
    simp only [deriveSendOptions, ho]

/-- Witness for C10 at a concrete input: the caller leaves
`preflightCommitment` unset and asks for commitment `confirmed`; the
submission still receives the original options with `preflightCommitment`
unset, though the derived `sendOptions` would have filled it in. -/
theorem raw_send_uses_caller_options_witness :
    sentRawOptions (sendAndConfirmTransaction ⟨false, none⟩
        (some ⟨some true, none, some "confirmed", none⟩) 60000
        ⟨"hash", 100, "sig", 0, []⟩).2 =
      some (some ⟨some true, none, some "confirmed", none⟩) :=
  (raw_send_uses_caller_options ⟨false, none⟩
      (some ⟨some true, none, some "confirmed", none⟩) 60000
      ⟨"hash", 100, "sig", 0, []⟩ rfl).1

/-- C2 fails on the code: with a finite timeout whose deadline (1000) the
clock (2000) has already passed, a status that is absent on every successful
query and a chain height (90) never exceeding the expiry height (100), the
loop never terminates — in particular it never produces `TimeoutError` — for
any number of iterations, because the status-absent path skips the deadline
check. -/
theorem always_absent_never_times_out (n : Nat) :
    loopRun ["finalized"] 100 1000 400
      (List.replicate n ⟨.ok none, .ok 90, 2000⟩) = none := by
  induction n with
  | zero => rfl
  | succ k ih =>
    rw [List.replicate_succ]
    exact ih

end ConfirmSolana
